import Mathlib

/-!
Verification of the data ingestion and normalization pipeline of the
`spotify_playlist` repository (files `spotify_data_set.py` and `logic.py`).

DataFrames are modelled shallowly: a `DF` is an ordered list of column names
together with a list of rows, each row a list of cells aligned positionally
with the columns.  A cell (`Val`) is a string, an integer, or null (pandas
NaN/None).  Fallible pandas operations (`columns.get_loc`, `drop`,
`sort_values` on a missing column) are modelled with `Except String`;
the Python value `None` used as a "no data" sentinel is modelled with
`Option`.
-/

/-- A cell of a dataframe: pandas string, integer, or NaN/None. -/
inductive Val where
  | null : Val
  | int : Int → Val
  | str : String → Val
deriving DecidableEq, Repr

/-- A dataframe: ordered column names and rows of cells, aligned positionally. -/
structure DF where
  cols : List String
  rows : List (List Val)
deriving DecidableEq, Repr

/-- A dataframe is well formed when every row has exactly one cell per column. -/
def DF.WF (df : DF) : Prop :=
  ∀ r ∈ df.rows, r.length = df.cols.length

instance (df : DF) : Decidable df.WF := by
  unfold DF.WF; infer_instance

/-- Column-name constants of `ColNames` in `spotify_data_set.py`. -/
def TIMESTAMP : String := "ts"

def MS_PLAYED : String := "ms_played"

def ALBUM_ARTIST_NAME : String := "album_artist_name"

def ALBUM_NAME : String := "album_name"

def TRACK_NAME : String := "track_name"

def TRACK_ID : String := "track_id"

def TRACK_KNOWN_ID : String := "track_known_id"

def TRACK_URI : String := "spotify_track_uri"

def USERNAME : String := "username"

def IP_ADDRESS : String := "ip_addr_decrypted"

def USER_AGENT : String := "user_agent_decrypted"

def SONG_MODE : String := "mode"

def SONG_KEY : String := "key"

def SONG_FULL_KEY : String := "full_key"

/-- First index of a column name in a column list (pandas `columns.get_loc`,
`none` when the column is absent, where pandas raises `KeyError`). -/
def getLocAux (c : String) : List String → Option Nat
  | [] => none
  | c' :: rest => if c' = c then some 0 else (getLocAux c rest).map (· + 1)

/-- `df.columns.get_loc c`. -/
def DF.getLoc (df : DF) (c : String) : Option Nat :=
  getLocAux c df.cols

/-- The cell of row `r` in the column at index `i` (null when out of range). -/
def cellAt (r : List Val) (i : Nat) : Val :=
  r.getD i Val.null

/-- The column of values `df[c]` (empty when the column is absent). -/
def DF.colValues (df : DF) (c : String) : List Val :=
  match df.getLoc c with
  | some i => df.rows.map (fun r => cellAt r i)
  | none => []

/-- Insert an element at position `i` of a list (pandas `DataFrame.insert`
semantics for one row or for the column list). -/
def insertAt (l : List α) (i : Nat) (a : α) : List α :=
  l.take i ++ a :: l.drop i

/-- `df.insert(loc, column, value)`: insert a new column at position `loc`
with the given cell values, one per row. -/
def DF.insertCol (df : DF) (loc : Nat) (c : String) (vs : List Val) : DF :=
  ⟨insertAt df.cols loc c, (df.rows.zip vs).map (fun rv => insertAt rv.1 loc rv.2)⟩

/-- `df[c] = series`: overwrite the cells of an existing column, or append a
new column at the end (pandas column assignment). -/
def DF.setCol (df : DF) (c : String) (vs : List Val) : DF :=
  match df.getLoc c with
  | some i => ⟨df.cols, (df.rows.zip vs).map (fun rv => rv.1.set i rv.2)⟩
  | none => ⟨df.cols ++ [c], (df.rows.zip vs).map (fun rv => rv.1 ++ [rv.2])⟩

/-- `df.rename(columns = m)`: rename columns that occur in the mapping,
leave the rest unchanged. -/
def DF.renameCols (df : DF) (m : List (String × String)) : DF :=
  ⟨df.cols.map (fun c => match m.lookup c with | some c' => c' | none => c), df.rows⟩

/-- `df.drop(columns = cs)` (default `errors = 'raise'`): error when any
listed column is absent, otherwise a new dataframe without those columns. -/
def DF.dropColumns (df : DF) (cs : List String) : Except String DF :=
  if cs.all (fun c => c ∈ df.cols) then
    Except.ok ⟨df.cols.filter (fun c => ¬ c ∈ cs),
               df.rows.map (fun r =>
                 ((df.cols.zip r).filter (fun p => ¬ p.1 ∈ cs)).map (fun p => p.2))⟩
  else
    Except.error "KeyError: columns not found in axis"

/-- Lexicographic comparison of character lists by code point, the order
underlying Python/pandas string comparison. -/
def strLeAux : List Char → List Char → Bool
  | [], _ => true
  | _ :: _, [] => false
  | a :: as, b :: bs =>
    if a.toNat = b.toNat then strLeAux as bs else decide (a.toNat < b.toNat)

/-- String comparison used for sorting cells. -/
def strLe (s t : String) : Bool :=
  strLeAux s.data t.data

/-- The string content of a cell, defaulting to the empty string. -/
def Val.strD : Val → String
  | .str s => s
  | _ => ""

/-- The timestamp string of a row, given the table's columns. -/
def tsStr (cols : List String) (r : List Val) : String :=
  match getLocAux TIMESTAMP cols with
  | some i => (cellAt r i).strD
  | none => ""

/-- Row order by ascending timestamp, as a decidable proposition. -/
def tsLe (cols : List String) (r1 r2 : List Val) : Prop :=
  strLe (tsStr cols r1) (tsStr cols r2) = true

instance (cols : List String) : DecidableRel (tsLe cols) := by
  unfold tsLe; infer_instance

/-- `df.sort_values(by = 'ts', ascending = True)`. -/
def DF.sortByTs (df : DF) : DF :=
  ⟨df.cols, List.insertionSort (tsLe df.cols) df.rows⟩

/-- One iteration step of the reading loop of
`collect_all_tracks_listen_history`: read consecutive segment files starting
at index 0 and stop at the first missing index.  A directory is modelled as a
list of optional dataframes, position `i` holding the parse of
`endsong_i.json` when that file exists. -/
def collectLoop : List (Option DF) → List DF
  | [] => []
  | none :: _ => []
  | some df :: rest => df :: collectLoop rest

/-- `pd.concat` over the successfully read segments, `none` when no segment
was read (the Python variable stays `None`).  Segment column sets are taken
from the first segment; the claims only concern segments with equal columns. -/
def concatAll : List DF → Option DF
  | [] => none
  | d :: ds => some ⟨d.cols, (d :: ds).flatMap DF.rows⟩

/-- `SpotifyDataSet.collect_all_tracks_listen_history`: read segments until
the first gap, concatenate, and sort ascending by timestamp; `none` when no
segment file with index 0 exists. -/
def collect_all_tracks_listen_history (segs : List (Option DF)) : Option DF :=
  match concatAll (collectLoop segs) with
  | none => none
  | some df => some df.sortByTs

/-- Fuel-driven worker for `removeAll`; each step consumes at least one
character of the input, so fuel `s.length` always suffices. -/
def removeAllFuel (p : List Char) : Nat → List Char → List Char
  | 0, s => s
  | _, [] => []
  | f + 1, c :: rest =>
    if p.isPrefixOf (c :: rest) ∧ 0 < p.length then
      removeAllFuel p f ((c :: rest).drop p.length)
    else
      c :: removeAllFuel p f rest

/-- Strip every occurrence of the pattern from a character list, scanning
left to right (the effect of `Series.replace(to_replace = p, value = '',
regex = True)` for a metacharacter-free pattern `p`). -/
def removeAll (p : List Char) (s : List Char) : List Char :=
  removeAllFuel p s.length s

/-- The fixed literal prefix stripped from catalog URIs. -/
def uriPat : List Char := "spotify:track:".data

/-- The cell transform of `add_track_id_column`: strip the URI pattern from
string cells, leave other cells unchanged. -/
def stripUriVal : Val → Val
  | .str s => .str ⟨removeAll uriPat s.data⟩
  | v => v

/-- `SpotifyDataSet.add_track_id_column`: derive `track_id` from
`spotify_track_uri` and insert it immediately after the URI column;
`KeyError` when the URI column is absent. -/
def add_track_id_column (df : DF) : Except String DF :=
  match df.getLoc TRACK_URI with
  | none => Except.error "KeyError: spotify_track_uri"
  | some i =>
    Except.ok (df.insertCol (i + 1) TRACK_ID ((df.colValues TRACK_URI).map stripUriVal))

/-- The fixed rename mapping `COLUMNS_TO_RENAME`. -/
def COLUMNS_TO_RENAME : List (String × String) :=
  [("master_metadata_track_name", TRACK_NAME),
   ("master_metadata_album_artist_name", ALBUM_ARTIST_NAME),
   ("master_metadata_album_album_name", ALBUM_NAME)]

/-- `SpotifyDataSet.rename_master_metadata_columns`. -/
def rename_master_metadata_columns (df : DF) : DF :=
  df.renameCols COLUMNS_TO_RENAME

/-- `SpotifyDataSet.get_tracks_listen_data` on a fresh instance: load the
history, derive the track-id column, rename the metadata columns, and run the
`drop` statement.  The Python code calls `drop` without `inplace = True` and
discards its result, so the drop, when it succeeds, does not change the
returned table, while a raised `KeyError` still propagates.  A `None` table
returned by the loader flows into `add_track_id_column`, where accessing
`.columns` on `None` raises `AttributeError`. -/
def get_tracks_listen_data (segs : List (Option DF)) : Except String DF :=
  match collect_all_tracks_listen_history segs with
  | none => Except.error "AttributeError: NoneType has no attribute columns"
  | some df =>
    match add_track_id_column df with
    | Except.error e => Except.error e
    | Except.ok df1 =>
      let df2 := rename_master_metadata_columns df1
      match df2.dropColumns [USERNAME, IP_ADDRESS, USER_AGENT] with
      | Except.error e => Except.error e
      | Except.ok _ => Except.ok df2

/-- Association-list lookup on cell values (a Python `dict` keyed by cells). -/
def lookupVal : List (Val × Val) → Val → Option Val
  | [], _ => none
  | kw :: rest, v => if kw.1 = v then some kw.2 else lookupVal rest v

/-- Fuel-driven worker for `uniqueFirst`; filtering only shortens the tail,
so fuel `l.length` always suffices. -/
def uniqueFirstFuel [DecidableEq α] : Nat → List α → List α
  | 0, _ => []
  | _, [] => []
  | f + 1, v :: rest => v :: uniqueFirstFuel f (rest.filter (fun x => x ≠ v))

/-- First-occurrence deduplication (pandas `Series.unique`). -/
def uniqueFirst [DecidableEq α] (l : List α) : List α :=
  uniqueFirstFuel l.length l

/-- The effective mapping of `add_known_track_id`: the identity dict over the
unique raw track ids, overwritten by the supplied mapping, then applied with
`Series.map` (values found in neither become NaN). -/
def updatedMapApply (uniq : List Val) (known : List (Val × Val)) (v : Val) : Val :=
  match lookupVal known v with
  | some w => w
  | none => if v ∈ uniq then v else Val.null

/-- `SpotifyDataSet.add_known_track_id`: map each raw track id through the
supplied mapping with identity fallback, and insert the result as a new
column immediately after the raw track-id column. -/
def add_known_track_id (df : DF) (known : List (Val × Val)) : Except String DF :=
  match df.getLoc TRACK_ID with
  | none => Except.error "KeyError: track_id"
  | some i =>
    let uniq := uniqueFirst (df.colValues TRACK_ID)
    Except.ok (df.insertCol (i + 1) TRACK_KNOWN_ID
      ((df.colValues TRACK_ID).map (updatedMapApply uniq known)))

/-- The `modes_replacement_dict` of `prepare_audio_analysis_data`. -/
def modesReplacement : List (Val × Val) :=
  [(.int 0, .str "m"), (.int 1, .str "M")]

/-- The `keys_replacement_dict` of `prepare_audio_analysis_data`. -/
def keysReplacement : List (Val × Val) :=
  [(.int 0, .str "C"), (.int 1, .str "C#"), (.int 2, .str "D"), (.int 3, .str "D#"),
   (.int 4, .str "E"), (.int 5, .str "F"), (.int 6, .str "F#"), (.int 7, .str "G"),
   (.int 8, .str "G#"), (.int 9, .str "A"), (.int 10, .str "A#"), (.int 11, .str "B")]

/-- `Series.replace` with a value list: replace cells that occur in the
table, pass the rest through unchanged. -/
def replaceVal (tbl : List (Val × Val)) (v : Val) : Val :=
  match lookupVal tbl v with
  | some w => w
  | none => v

/-- Cell addition (pandas `Series + Series`): string concatenation on
strings, integer addition on integers, NaN otherwise. -/
def Val.add : Val → Val → Val
  | .str s, .str t => .str (s ++ t)
  | .int a, .int b => .int (a + b)
  | _, _ => .null

/-- `SpotifyDataSet.prepare_audio_analysis_data`: recode `mode` and `key`
through the fixed letter tables, then assign `full_key` as their cellwise
concatenation. -/
def prepare_audio_analysis_data (df : DF) : DF :=
  let df1 := df.setCol SONG_MODE ((df.colValues SONG_MODE).map (replaceVal modesReplacement))
  let df2 := df1.setCol SONG_KEY ((df1.colValues SONG_KEY).map (replaceVal keysReplacement))
  df2.setCol SONG_FULL_KEY
    (List.zipWith Val.add (df2.colValues SONG_KEY) (df2.colValues SONG_MODE))

/-- Lexicographic comparison of string lists. -/
def strListLe : List String → List String → Bool
  | [], _ => true
  | _ :: _, [] => false
  | a :: as, b :: bs => if a = b then strListLe as bs else strLe a b

/-- The sort key of a row for a multi-column `sort_values`. -/
def comboKey (cols : List String) (cs : List String) (r : List Val) : List String :=
  cs.map (fun c =>
    match getLocAux c cols with
    | some i => (cellAt r i).strD
    | none => "")

/-- `df.sort_values(by = cs, ascending = True)`: `KeyError` when a sort
column is absent. -/
def DF.sortValuesBy (df : DF) (cs : List String) : Except String DF :=
  if cs.all (fun c => c ∈ df.cols) then
    Except.ok ⟨df.cols,
      List.insertionSort
        (fun r1 r2 => strListLe (comboKey df.cols cs r1) (comboKey df.cols cs r2) = true)
        df.rows⟩
  else
    Except.error "KeyError: sort column not found"

/-- `SpotifyDataSet.get_distinct_tracks`: sorts a copy by the four-column
combination, then calls `drop_duplicates(..., inplace = True)` — which
returns `None` — and immediately subscripts that result with the track-id
column, raising `TypeError` on every input on which the sort succeeded. -/
def get_distinct_tracks (df : DF) : Except String DF :=
  match df.sortValuesBy [ALBUM_ARTIST_NAME, ALBUM_NAME, TRACK_NAME, TRACK_ID] with
  | Except.error e => Except.error e
  | Except.ok _ => Except.error "TypeError: NoneType object is not subscriptable"

/-- The integer cells of a column (pandas numeric reductions skip NaN). -/
def intVals (vs : List Val) : List Int :=
  vs.filterMap (fun v => match v with | .int n => some n | _ => none)

/-- One output row of `calc_listen_data_by_key`: a group key, the mean of
every other numeric column, and the summed play duration. -/
structure KeyAggRow where
  key : String
  means : List (String × Rat)
  duration_ms : Int
deriving DecidableEq, Repr

/-- The group labels of `groupby('key')`: distinct non-null key cells (as
strings), sorted ascending (`sort = True` default). -/
def keyLabels (df : DF) : List String :=
  List.insertionSort (fun a b => strLe a b = true)
    (uniqueFirst ((df.colValues SONG_KEY).filterMap
      (fun v => match v with | Val.null => none | v => some v.strD)))

/-- The columns averaged by `groupby('key').mean()` after
`drop(columns = 'ms_played')`: every numeric column other than the group key
and the dropped duration column. -/
def numericMeanCols (df : DF) : List String :=
  df.cols.filter (fun c =>
    c ≠ SONG_KEY ∧ c ≠ MS_PLAYED ∧
    (df.colValues c).all (fun v => match v with | .int _ => true | .null => true | _ => false))

/-- The mean of a column over a group of rows, NaN-skipping. -/
def groupMean (cols : List String) (grp : List (List Val)) (c : String) : Rat :=
  match getLocAux c cols with
  | some i =>
    let xs := intVals (grp.map (fun r => cellAt r i))
    (xs.sum : Rat) / (xs.length : Rat)
  | none => 0

/-- `Logic.calc_listen_data_by_key` (without the file write): group by the
key column; per group, sum `ms_played` and average every other numeric
column, the sum merged back via `assign(duration_ms = ...)`. -/
def calc_listen_data_by_key (df : DF) : Except String (List KeyAggRow) :=
  match df.getLoc SONG_KEY, df.getLoc MS_PLAYED with
  | some ki, some mi =>
    Except.ok ((keyLabels df).map (fun k =>
      let grp := df.rows.filter
        (fun r => decide ((cellAt r ki).strD = k ∧ cellAt r ki ≠ Val.null))
      { key := k
        means := (numericMeanCols df).map (fun c => (c, groupMean df.cols grp c))
        duration_ms := (intVals (grp.map (fun r => cellAt r mi))).sum }))
  | _, _ => Except.error "KeyError: key or ms_played not found"

/-- The key letter table exactly as the specification lists it
(0→"C", 1→"C#", …, 11→"B"); used to compare the code's recoding against
the spec's wording. -/
def keyLetterSpec (k : Int) : String :=
  if k = 0 then "C"
  else if k = 1 then "C#"
  else if k = 2 then "D"
  else if k = 3 then "D#"
  else if k = 4 then "E"
  else if k = 5 then "F"
  else if k = 6 then "F#"
  else if k = 7 then "G"
  else if k = 8 then "G#"
  else if k = 9 then "A"
  else if k = 10 then "A#"
  else if k = 11 then "B"
  else ""

/-- The mode letter table exactly as the specification lists it
(0→"m", 1→"M"). -/
def modeLetterSpec (m : Int) : String :=
  if m = 0 then "m" else if m = 1 then "M" else ""

/-- A two-row raw history segment carrying the three privacy-sensitive
columns, out of timestamp order. -/
def demo1 : DF :=
  ⟨[TIMESTAMP, TRACK_URI, USERNAME, IP_ADDRESS, USER_AGENT],
   [[Val.str "2021-01-02", Val.str "spotify:track:AAA", Val.str "user1",
     Val.str "1.2.3.4", Val.str "agent1"],
    [Val.str "2021-01-01", Val.str "spotify:track:BBB", Val.str "user1",
     Val.str "1.2.3.4", Val.str "agent2"]]⟩

/-- The table `get_tracks_listen_data` actually produces from `demo1`:
sorted, with the derived track-id column, and with the privacy columns
still present. -/
def demo1Out : DF :=
  ⟨[TIMESTAMP, TRACK_URI, TRACK_ID, USERNAME, IP_ADDRESS, USER_AGENT],
   [[Val.str "2021-01-01", Val.str "spotify:track:BBB", Val.str "BBB",
     Val.str "user1", Val.str "1.2.3.4", Val.str "agent2"],
    [Val.str "2021-01-02", Val.str "spotify:track:AAA", Val.str "AAA",
     Val.str "user1", Val.str "1.2.3.4", Val.str "agent1"]]⟩

/-- A one-row segment that already lacks the privacy columns. -/
def demo1Clean : DF :=
  ⟨[TIMESTAMP, TRACK_URI],
   [[Val.str "2021-01-01", Val.str "spotify:track:BBB"]]⟩

/-- History segment 0 of the demo directory. -/
def segA : DF :=
  ⟨[TIMESTAMP, TRACK_URI],
   [[Val.str "2021-01-03", Val.str "spotify:track:A1"],
    [Val.str "2021-01-01", Val.str "spotify:track:A2"]]⟩

/-- History segment 1 of the demo directory. -/
def segB : DF :=
  ⟨[TIMESTAMP, TRACK_URI],
   [[Val.str "2021-01-02", Val.str "spotify:track:B1"]]⟩

/-- History segment 3 of the demo directory (never read: index 2 is missing). -/
def segC : DF :=
  ⟨[TIMESTAMP, TRACK_URI],
   [[Val.str "2021-01-04", Val.str "spotify:track:C1"]]⟩

/-- The table the loader produces from segments 0 and 1 of the demo
directory, sorted by timestamp. -/
def loadedAB : DF :=
  ⟨[TIMESTAMP, TRACK_URI],
   [[Val.str "2021-01-01", Val.str "spotify:track:A2"],
    [Val.str "2021-01-02", Val.str "spotify:track:B1"],
    [Val.str "2021-01-03", Val.str "spotify:track:A1"]]⟩

/-- A working table with a raw track-id column, for the known-track mapper. -/
def demo4 : DF :=
  ⟨[TIMESTAMP, TRACK_ID],
   [[Val.str "2021-01-01", Val.str "AAA"],
    [Val.str "2021-01-02", Val.str "BBB"],
    [Val.str "2021-01-03", Val.str "AAA"]]⟩

/-- A partial known-track mapping covering only raw id AAA. -/
def known4 : List (Val × Val) :=
  [(Val.str "AAA", Val.str "ZZZ")]

/-- A table with numeric key and mode codes, for the recoder. -/
def demo5 : DF :=
  ⟨[SONG_KEY, SONG_MODE],
   [[Val.int 1, Val.int 1],
    [Val.int 0, Val.int 0]]⟩

/-- A one-row table with a catalog URI, for the id derivation. -/
def demo6 : DF :=
  ⟨[TRACK_URI],
   [[Val.str "spotify:track:ABC123"]]⟩

/-- The aggregation example of the specification: three rows with key "C"
and durations 100, 200, 300, one row with key "D" and duration 400. -/
def demo7 : DF :=
  ⟨[SONG_KEY, MS_PLAYED],
   [[Val.str "C", Val.int 100], [Val.str "C", Val.int 200],
    [Val.str "C", Val.int 300], [Val.str "D", Val.int 400]]⟩

/-- The same example with one extra numeric column, to exercise the
per-group means. -/
def demo7b : DF :=
  ⟨[SONG_KEY, MS_PLAYED, "energy"],
   [[Val.str "C", Val.int 100, Val.int 10], [Val.str "C", Val.int 200, Val.int 20],
    [Val.str "C", Val.int 300, Val.int 30], [Val.str "D", Val.int 400, Val.int 40]]⟩

/-- A working table carrying the four distinct-track grouping columns. -/
def demo8 : DF :=
  ⟨[TIMESTAMP, ALBUM_ARTIST_NAME, ALBUM_NAME, TRACK_NAME, TRACK_ID],
   [[Val.str "2021-01-01", Val.str "Artist", Val.str "Album", Val.str "Song",
     Val.str "AAA"]]⟩

/-- A table without the catalog URI column. -/
def demo9 : DF :=
  ⟨[TIMESTAMP], [[Val.str "2021-01-01"]]⟩


theorem getLocAux_none_iff (c : String) (l : List String) :
    getLocAux c l = none ↔ ¬ c ∈ l := by
  induction l with
  | nil => simp [getLocAux]
  | cons x xs ih =>
    by_cases hx : x = c
    · simp [getLocAux, hx]
    · simp only [getLocAux, if_neg hx, Option.map_eq_none', List.mem_cons, ih]
      constructor
      · intro h hc
        rcases hc with hc | hc
        · exact hx hc.symm
        · exact h hc
      · intro h hc
        exact h (Or.inr hc)

theorem getLocAux_lt (c : String) (l : List String) (i : Nat)
    (h : getLocAux c l = some i) : i < l.length := by
  induction l generalizing i with
  | nil => simp [getLocAux] at h
  | cons x xs ih =>
    by_cases hx : x = c
    · simp only [getLocAux, if_pos hx, Option.some.injEq] at h
      subst h
      simp
    · simp only [getLocAux, if_neg hx, Option.map_eq_some'] at h
      rcases h with ⟨j, hj, rfl⟩
      have := ih j hj
      simp only [List.length_cons]
      omega

theorem getLocAux_get (c : String) (l : List String) (i : Nat)
    (h : getLocAux c l = some i) : l[i]? = some c := by
  induction l generalizing i with
  | nil => simp [getLocAux] at h
  | cons x xs ih =>
    by_cases hx : x = c
    · simp only [getLocAux, if_pos hx, Option.some.injEq] at h
      subst h
      simp [hx]
    · simp only [getLocAux, if_neg hx, Option.map_eq_some'] at h
      rcases h with ⟨j, hj, rfl⟩
      simpa using ih j hj

theorem getLocAux_append_of_mem (c : String) (l l' : List String) (i : Nat)
    (h : getLocAux c l = some i) : getLocAux c (l ++ l') = some i := by
  induction l generalizing i with
  | nil => simp [getLocAux] at h
  | cons x xs ih =>
    by_cases hx : x = c
    · simp only [getLocAux, if_pos hx, Option.some.injEq] at h
      subst h
      simp [getLocAux, hx]
    · simp only [getLocAux, if_neg hx, Option.map_eq_some'] at h
      rcases h with ⟨j, hj, rfl⟩
      simp only [List.cons_append, getLocAux, if_neg hx, List.append_eq, ih j hj,
        Option.map_some']

theorem getLocAux_insertAt_self (c : String) (l : List String) (i : Nat)
    (hc : ¬ c ∈ l) (hi : i ≤ l.length) : getLocAux c (insertAt l i c) = some i := by
  induction l generalizing i with
  | nil =>
    have : i = 0 := by simpa using hi
    subst this
    simp [insertAt, getLocAux]
  | cons x xs ih =>
    cases i with
    | zero => simp [insertAt, getLocAux]
    | succ j =>
      have hxc : ¬ x = c := fun h => hc (by simp [h])
      have hcx : ¬ c ∈ xs := fun h => hc (by simp [h])
      have hj : j ≤ xs.length := by simpa using hi
      have h2 := ih j hcx hj
      unfold insertAt at h2
      simp only [insertAt, List.take_succ_cons, List.drop_succ_cons, List.cons_append,
        List.append_eq, getLocAux, if_neg hxc, h2, Option.map_some']

theorem getLocAux_insertAt_lt (c x : String) (l : List String) (i k : Nat)
    (h : getLocAux c l = some k) (hk : k < i) :
    getLocAux c (insertAt l i x) = some k := by
  induction l generalizing i k with
  | nil => simp [getLocAux] at h
  | cons y ys ih =>
    cases i with
    | zero => omega
    | succ j =>
      simp only [insertAt, List.take_succ_cons, List.drop_succ_cons, List.cons_append]
      by_cases hy : y = c
      · simp only [getLocAux, if_pos hy, Option.some.injEq] at h ⊢
        exact h
      · simp only [getLocAux, if_neg hy, Option.map_eq_some'] at h
        rcases h with ⟨k', hk', rfl⟩
        have h2 := ih j k' hk' (by omega)
        unfold insertAt at h2
        simp only [getLocAux, if_neg hy, List.append_eq, h2, Option.map_some']

theorem cellAt_insertAt_self (r : List Val) (i : Nat) (v : Val) (hi : i ≤ r.length) :
    cellAt (insertAt r i v) i = v := by
  unfold cellAt insertAt
  rw [List.getD_eq_getElem?_getD,
    List.getElem?_append_right (by rw [List.length_take]; exact Nat.min_le_left i r.length)]
  simp [List.length_take, Nat.min_eq_left hi]

theorem cellAt_insertAt_lt (r : List Val) (i k : Nat) (v : Val)
    (hk : k < i) (hi : i ≤ r.length) : cellAt (insertAt r i v) k = cellAt r k := by
  unfold cellAt insertAt
  rw [List.getD_eq_getElem?_getD,
    List.getElem?_append_left (by simp [List.length_take]; omega),
    List.getElem?_take, if_pos hk, List.getD_eq_getElem?_getD]

theorem cellAt_set_self (r : List Val) (i : Nat) (v : Val) (hi : i < r.length) :
    cellAt (r.set i v) i = v := by
  unfold cellAt
  rw [List.getD_eq_getElem?_getD, List.getElem?_set_self hi]
  rfl

theorem cellAt_set_ne (r : List Val) (i k : Nat) (v : Val) (hik : i ≠ k) :
    cellAt (r.set i v) k = cellAt r k := by
  unfold cellAt
  rw [List.getD_eq_getElem?_getD, List.getElem?_set_ne hik, ← List.getD_eq_getElem?_getD]

theorem cellAt_concat_self (r : List Val) (v : Val) :
    cellAt (r ++ [v]) r.length = v := by
  unfold cellAt
  rw [List.getD_eq_getElem?_getD, List.getElem?_concat_length]
  rfl

theorem cellAt_concat_lt (r : List Val) (k : Nat) (v : Val) (hk : k < r.length) :
    cellAt (r ++ [v]) k = cellAt r k := by
  unfold cellAt
  rw [List.getD_eq_getElem?_getD, List.getElem?_append_left hk, ← List.getD_eq_getElem?_getD]

theorem colValues_length (df : DF) (c : String) (i : Nat) (h : df.getLoc c = some i) :
    (df.colValues c).length = df.rows.length := by
  unfold DF.colValues
  rw [h]
  simp

theorem zip_insert_proj (rows : List (List Val)) (vs : List Val) (i : Nat)
    (hlen : vs.length = rows.length) (hall : ∀ r ∈ rows, i ≤ r.length) :
    ((rows.zip vs).map (fun rv => insertAt rv.1 i rv.2)).map (fun r => cellAt r i) = vs := by
  induction rows generalizing vs with
  | nil =>
    cases vs with
    | nil => rfl
    | cons v vs => simp at hlen
  | cons r rs ih =>
    cases vs with
    | nil => simp at hlen
    | cons v vs =>
      simp only [List.zip_cons_cons, List.map_cons, List.cons.injEq]
      constructor
      · exact cellAt_insertAt_self r i v (hall r (by simp))
      · exact ih vs (by simpa using hlen) (fun r hr => hall r (by simp [hr]))

theorem zip_insert_proj_lt (rows : List (List Val)) (vs : List Val) (i k : Nat)
    (hk : k < i) (hall : ∀ r ∈ rows, i ≤ r.length) :
    ((rows.zip vs).map (fun rv => insertAt rv.1 i rv.2)).map (fun r => cellAt r k) =
      (rows.map (fun r => cellAt r k)).take vs.length := by
  induction rows generalizing vs with
  | nil => simp
  | cons r rs ih =>
    cases vs with
    | nil => simp
    | cons v vs =>
      simp only [List.zip_cons_cons, List.map_cons, List.length_cons, List.take_succ_cons,
        List.cons.injEq]
      constructor
      · exact cellAt_insertAt_lt r i k v hk (hall r (by simp))
      · exact ih vs (fun r hr => hall r (by simp [hr]))

theorem insertCol_getLoc_new (df : DF) (c : String) (vs : List Val) (i : Nat)
    (hc : ¬ c ∈ df.cols) (hi : i ≤ df.cols.length) :
    (df.insertCol i c vs).getLoc c = some i :=
  getLocAux_insertAt_self c df.cols i hc hi

theorem insertCol_getLoc_old (df : DF) (c : String) (vs : List Val) (i : Nat)
    (c' : String) (k : Nat) (h : df.getLoc c' = some k) (hk : k < i) :
    (df.insertCol i c vs).getLoc c' = some k :=
  getLocAux_insertAt_lt c' c df.cols i k h hk

theorem insertCol_colValues_new (df : DF) (c : String) (vs : List Val) (i : Nat)
    (wf : df.WF) (hlen : vs.length = df.rows.length)
    (hc : ¬ c ∈ df.cols) (hi : i ≤ df.cols.length) :
    (df.insertCol i c vs).colValues c = vs := by
  unfold DF.colValues
  rw [insertCol_getLoc_new df c vs i hc hi]
  exact zip_insert_proj df.rows vs i hlen (fun r hr => (wf r hr).symm ▸ hi)

theorem insertCol_colValues_old (df : DF) (c : String) (vs : List Val) (i : Nat)
    (c' : String) (k : Nat) (wf : df.WF) (hlen : vs.length = df.rows.length)
    (h : df.getLoc c' = some k) (hk : k < i) (hi : i ≤ df.cols.length) :
    (df.insertCol i c vs).colValues c' = df.colValues c' := by
  unfold DF.colValues
  rw [insertCol_getLoc_old df c vs i c' k h hk, h]
  dsimp only
  rw [show (df.insertCol i c vs).rows
        = (df.rows.zip vs).map (fun rv => insertAt rv.1 i rv.2) from rfl,
    zip_insert_proj_lt df.rows vs i k hk (fun r hr => (wf r hr).symm ▸ hi), hlen]
  rw [show df.rows.length = (df.rows.map (fun r => cellAt r k)).length by simp]
  exact List.take_length _

theorem getLocAux_concat_self (c : String) (l : List String) (hc : ¬ c ∈ l) :
    getLocAux c (l ++ [c]) = some l.length := by
  have h := getLocAux_insertAt_self c l l.length hc (Nat.le_refl _)
  unfold insertAt at h
  rwa [List.take_length, List.drop_length] at h

theorem zip_set_proj (rows : List (List Val)) (vs : List Val) (i : Nat)
    (hlen : vs.length = rows.length) (hall : ∀ r ∈ rows, i < r.length) :
    ((rows.zip vs).map (fun rv => rv.1.set i rv.2)).map (fun r => cellAt r i) = vs := by
  induction rows generalizing vs with
  | nil =>
    cases vs with
    | nil => rfl
    | cons v vs => simp at hlen
  | cons r rs ih =>
    cases vs with
    | nil => simp at hlen
    | cons v vs =>
      simp only [List.zip_cons_cons, List.map_cons, List.cons.injEq]
      exact ⟨cellAt_set_self r i v (hall r (by simp)),
        ih vs (by simpa using hlen) (fun r hr => hall r (by simp [hr]))⟩

theorem zip_set_proj_ne (rows : List (List Val)) (vs : List Val) (i k : Nat)
    (hik : i ≠ k) :
    ((rows.zip vs).map (fun rv => rv.1.set i rv.2)).map (fun r => cellAt r k) =
      (rows.map (fun r => cellAt r k)).take vs.length := by
  induction rows generalizing vs with
  | nil => simp
  | cons r rs ih =>
    cases vs with
    | nil => simp
    | cons v vs =>
      simp only [List.zip_cons_cons, List.map_cons, List.length_cons, List.take_succ_cons,
        List.cons.injEq]
      exact ⟨cellAt_set_ne r i k v hik, ih vs⟩

theorem zip_concat_proj (rows : List (List Val)) (vs : List Val) (n : Nat)
    (hlen : vs.length = rows.length) (hall : ∀ r ∈ rows, r.length = n) :
    ((rows.zip vs).map (fun rv => rv.1 ++ [rv.2])).map (fun r => cellAt r n) = vs := by
  induction rows generalizing vs with
  | nil =>
    cases vs with
    | nil => rfl
    | cons v vs => simp at hlen
  | cons r rs ih =>
    cases vs with
    | nil => simp at hlen
    | cons v vs =>
      simp only [List.zip_cons_cons, List.map_cons, List.cons.injEq]
      refine ⟨?_, ih vs (by simpa using hlen) (fun r hr => hall r (by simp [hr]))⟩
      rw [← hall r (by simp)]
      exact cellAt_concat_self r v

theorem zip_concat_proj_lt (rows : List (List Val)) (vs : List Val) (k : Nat)
    (hall : ∀ r ∈ rows, k < r.length) :
    ((rows.zip vs).map (fun rv => rv.1 ++ [rv.2])).map (fun r => cellAt r k) =
      (rows.map (fun r => cellAt r k)).take vs.length := by
  induction rows generalizing vs with
  | nil => simp
  | cons r rs ih =>
    cases vs with
    | nil => simp
    | cons v vs =>
      simp only [List.zip_cons_cons, List.map_cons, List.length_cons, List.take_succ_cons,
        List.cons.injEq]
      exact ⟨cellAt_concat_lt r k v (hall r (by simp)),
        ih vs (fun r hr => hall r (by simp [hr]))⟩

theorem setCol_cols_of_mem (df : DF) (c : String) (vs : List Val) (i : Nat)
    (h : df.getLoc c = some i) : (df.setCol c vs).cols = df.cols := by
  unfold DF.setCol
  rw [h]

theorem setCol_cols_of_not_mem (df : DF) (c : String) (vs : List Val)
    (h : df.getLoc c = none) : (df.setCol c vs).cols = df.cols ++ [c] := by
  unfold DF.setCol
  rw [h]

theorem setCol_rows_length (df : DF) (c : String) (vs : List Val)
    (hlen : vs.length = df.rows.length) :
    (df.setCol c vs).rows.length = df.rows.length := by
  unfold DF.setCol
  cases h : df.getLoc c <;> simp [List.length_zip, hlen]

theorem colValues_of_getLoc (d : DF) (c : String) (i : Nat) (h : d.getLoc c = some i) :
    d.colValues c = d.rows.map (fun r => cellAt r i) := by
  unfold DF.colValues
  rw [h]

theorem setCol_WF (df : DF) (c : String) (vs : List Val) (wf : df.WF) :
    (df.setCol c vs).WF := by
  unfold DF.setCol
  cases h : df.getLoc c with
  | some i =>
    intro r hr
    simp only [List.mem_map] at hr
    rcases hr with ⟨rv, hrv, rfl⟩
    simp only [List.length_set]
    exact wf rv.1 (List.of_mem_zip hrv).1
  | none =>
    intro r hr
    simp only [List.mem_map] at hr
    rcases hr with ⟨rv, hrv, rfl⟩
    simp [wf rv.1 (List.of_mem_zip hrv).1]

theorem setCol_rows_of_mem (df : DF) (c : String) (vs : List Val) (i : Nat)
    (h : df.getLoc c = some i) :
    (df.setCol c vs).rows = (df.rows.zip vs).map (fun rv => rv.1.set i rv.2) := by
  unfold DF.setCol
  rw [h]

theorem setCol_rows_of_not_mem (df : DF) (c : String) (vs : List Val)
    (h : df.getLoc c = none) :
    (df.setCol c vs).rows = (df.rows.zip vs).map (fun rv => rv.1 ++ [rv.2]) := by
  unfold DF.setCol
  rw [h]

theorem setCol_colValues_self (df : DF) (c : String) (vs : List Val)
    (wf : df.WF) (hlen : vs.length = df.rows.length) :
    (df.setCol c vs).colValues c = vs := by
  cases h : df.getLoc c with
  | some i =>
    have hget : (df.setCol c vs).getLoc c = some i := by
      unfold DF.getLoc
      rw [setCol_cols_of_mem df c vs i h]
      exact h
    rw [colValues_of_getLoc _ c i hget, setCol_rows_of_mem df c vs i h]
    exact zip_set_proj df.rows vs i hlen
      (fun r hr => (wf r hr).symm ▸ getLocAux_lt c df.cols i h)
  | none =>
    have hc : ¬ c ∈ df.cols := (getLocAux_none_iff c df.cols).mp h
    have hget : (df.setCol c vs).getLoc c = some df.cols.length := by
      unfold DF.getLoc
      rw [setCol_cols_of_not_mem df c vs h]
      exact getLocAux_concat_self c df.cols hc
    rw [colValues_of_getLoc _ c _ hget, setCol_rows_of_not_mem df c vs h]
    exact zip_concat_proj df.rows vs df.cols.length hlen wf

theorem setCol_colValues_other (df : DF) (c : String) (vs : List Val)
    (c' : String) (k : Nat) (wf : df.WF) (hlen : vs.length = df.rows.length)
    (hk : df.getLoc c' = some k) (hne : ¬ c' = c) :
    (df.setCol c vs).colValues c' = df.colValues c' := by
  rw [colValues_of_getLoc df c' k hk]
  cases h : df.getLoc c with
  | some i =>
    have hget : (df.setCol c vs).getLoc c' = some k := by
      unfold DF.getLoc
      rw [setCol_cols_of_mem df c vs i h]
      exact hk
    rw [colValues_of_getLoc _ c' k hget, setCol_rows_of_mem df c vs i h]
    have hik : i ≠ k := by
      intro he
      subst he
      have h1 := getLocAux_get c df.cols i h
      have h2 := getLocAux_get c' df.cols i hk
      rw [h1, Option.some.injEq] at h2
      exact hne h2.symm
    rw [zip_set_proj_ne df.rows vs i k hik, hlen]
    rw [show df.rows.length = (df.rows.map (fun r => cellAt r k)).length by simp]
    exact List.take_length _
  | none =>
    have hget : (df.setCol c vs).getLoc c' = some k := by
      unfold DF.getLoc
      rw [setCol_cols_of_not_mem df c vs h]
      exact getLocAux_append_of_mem c' df.cols [c] k hk
    rw [colValues_of_getLoc _ c' k hget, setCol_rows_of_not_mem df c vs h]
    rw [zip_concat_proj_lt df.rows vs k
      (fun r hr => (wf r hr).symm ▸ getLocAux_lt c' df.cols k hk), hlen]
    rw [show df.rows.length = (df.rows.map (fun r => cellAt r k)).length by simp]
    exact List.take_length _

/-- Whether the pattern occurs as a contiguous subsequence (regex match of a
literal pattern somewhere in the string). -/
def containsSeq (p : List Char) : List Char → Bool
  | [] => p.isPrefixOf []
  | c :: rest => p.isPrefixOf (c :: rest) || containsSeq p rest

theorem removeAllFuel_congr (p : List Char) :
    ∀ (f1 f2 : Nat) (s : List Char), s.length ≤ f1 → s.length ≤ f2 →
      removeAllFuel p f1 s = removeAllFuel p f2 s := by
  intro f1
  induction f1 with
  | zero =>
    intro f2 s h1 _
    have : s = [] := List.length_eq_zero.mp (Nat.le_zero.mp h1)
    subst this
    cases f2 <;> rfl
  | succ f ih =>
    intro f2 s h1 h2
    cases s with
    | nil => cases f2 <;> rfl
    | cons c rest =>
      cases f2 with
      | zero => simp at h2
      | succ g =>
        simp only [removeAllFuel]
        by_cases hcond : p.isPrefixOf (c :: rest) = true ∧ 0 < p.length
        · rw [if_pos hcond, if_pos hcond]
          apply ih
          · simp only [List.length_drop, List.length_cons]
            simp only [List.length_cons] at h1
            omega
          · simp only [List.length_drop, List.length_cons]
            simp only [List.length_cons] at h2
            omega
        · rw [if_neg hcond, if_neg hcond]
          rw [ih g rest (by simp only [List.length_cons] at h1; omega)
            (by simp only [List.length_cons] at h2; omega)]

theorem removeAll_not_contains (p : List Char) (s : List Char)
    (h : containsSeq p s = false) : removeAll p s = s := by
  induction s with
  | nil => rfl
  | cons c rest ih =>
    simp only [containsSeq, Bool.or_eq_false_iff] at h
    unfold removeAll at ih ⊢
    simp only [List.length_cons, removeAllFuel]
    rw [if_neg (fun hc => by rw [h.1] at hc; exact Bool.false_ne_true hc.1)]
    rw [ih h.2]

theorem isPrefixOf_append_self (p s : List Char) : p.isPrefixOf (p ++ s) = true := by
  induction p with
  | nil => simp [List.isPrefixOf]
  | cons a as ih => simp [List.isPrefixOf, ih]

theorem removeAll_append_self (p : List Char) (s : List Char) (hp : 0 < p.length) :
    removeAll p (p ++ s) = removeAll p s := by
  cases p with
  | nil => simp at hp
  | cons a as =>
    show removeAll (a :: as) (a :: (as ++ s)) = removeAll (a :: as) s
    unfold removeAll
    simp only [List.length_cons, removeAllFuel]
    rw [if_pos ⟨isPrefixOf_append_self (a :: as) s, hp⟩]
    rw [show List.drop (as.length + 1) (a :: (as ++ s)) = s by
      rw [List.drop_succ_cons]
      exact List.drop_left as s]
    apply removeAllFuel_congr
    · simp only [List.length_append]
      omega
    · exact Nat.le_refl _

theorem stripUriVal_strips (id : String) (h : containsSeq uriPat id.data = false) :
    stripUriVal (Val.str ("spotify:track:" ++ id)) = Val.str id := by
  show Val.str ⟨removeAll uriPat ("spotify:track:" ++ id).data⟩ = Val.str id
  rw [show ("spotify:track:" ++ id).data = uriPat ++ id.data from String.data_append _ _,
    removeAll_append_self uriPat id.data (by decide),
    removeAll_not_contains uriPat id.data h]

theorem strLeAux_total (as : List Char) : ∀ bs, strLeAux as bs = true ∨ strLeAux bs as = true := by
  induction as with
  | nil => intro bs; exact Or.inl rfl
  | cons a as ih =>
    intro bs
    cases bs with
    | nil => exact Or.inr rfl
    | cons b bs =>
      simp only [strLeAux]
      by_cases hab : a.toNat = b.toNat
      · rw [if_pos hab, if_pos hab.symm]
        exact ih bs
      · rw [if_neg hab, if_neg (fun h => hab h.symm)]
        simp only [decide_eq_true_eq]
        omega

theorem strLeAux_trans (as : List Char) :
    ∀ bs cs, strLeAux as bs = true → strLeAux bs cs = true → strLeAux as cs = true := by
  induction as with
  | nil => intro bs cs _ _; rfl
  | cons a as ih =>
    intro bs cs h1 h2
    cases bs with
    | nil => simp [strLeAux] at h1
    | cons b bs =>
      cases cs with
      | nil => simp [strLeAux] at h2
      | cons c cs =>
        simp only [strLeAux] at h1 h2 ⊢
        by_cases hab : a.toNat = b.toNat <;> by_cases hbc : b.toNat = c.toNat
        · rw [if_pos hab] at h1
          rw [if_pos hbc] at h2
          rw [if_pos (hab.trans hbc)]
          exact ih bs cs h1 h2
        · rw [if_pos hab] at h1
          rw [if_neg hbc] at h2
          simp only [decide_eq_true_eq] at h2
          rw [if_neg (by omega)]
          simp only [decide_eq_true_eq]
          omega
        · rw [if_neg hab] at h1
          simp only [decide_eq_true_eq] at h1
          rw [if_pos hbc] at h2
          rw [if_neg (by omega)]
          simp only [decide_eq_true_eq]
          omega
        · rw [if_neg hab] at h1
          rw [if_neg hbc] at h2
          simp only [decide_eq_true_eq] at h1 h2
          rw [if_neg (by omega)]
          simp only [decide_eq_true_eq]
          omega

theorem tsLe_total (cols : List String) (r1 r2 : List Val) :
    tsLe cols r1 r2 ∨ tsLe cols r2 r1 :=
  strLeAux_total (tsStr cols r1).data (tsStr cols r2).data

theorem tsLe_trans (cols : List String) (r1 r2 r3 : List Val)
    (h1 : tsLe cols r1 r2) (h2 : tsLe cols r2 r3) : tsLe cols r1 r3 :=
  strLeAux_trans (tsStr cols r1).data (tsStr cols r2).data (tsStr cols r3).data h1 h2

theorem uniqueFirstFuel_mem [DecidableEq α] :
    ∀ (f : Nat) (l : List α) (a : α), l.length ≤ f → a ∈ l → a ∈ uniqueFirstFuel f l := by
  intro f
  induction f with
  | zero =>
    intro l a hl ha
    have : l = [] := List.length_eq_zero.mp (Nat.le_zero.mp hl)
    subst this
    simp at ha
  | succ f ih =>
    intro l a hl ha
    cases l with
    | nil => simp at ha
    | cons v rest =>
      by_cases hav : a = v
      · subst hav
        exact List.mem_cons_self _ _
      · have har : a ∈ rest := by
          rcases List.mem_cons.mp ha with h | h
          · exact absurd h hav
          · exact h
        have hmem : a ∈ rest.filter (fun x => x ≠ v) := by
          rw [List.mem_filter]
          exact ⟨har, by simp [hav]⟩
        simp only [uniqueFirstFuel]
        refine List.mem_cons.mpr (Or.inr ?_)
        apply ih
        · calc (rest.filter (fun x => x ≠ v)).length ≤ rest.length :=
                List.length_filter_le _ _
            _ ≤ f := by simp only [List.length_cons] at hl; omega
        · exact hmem

theorem uniqueFirst_mem [DecidableEq α] (l : List α) (a : α) (ha : a ∈ l) :
    a ∈ uniqueFirst l :=
  uniqueFirstFuel_mem l.length l a (Nat.le_refl _) ha

theorem lookupVal_mem (tbl : List (Val × Val)) (v w : Val)
    (h : lookupVal tbl v = some w) : ∃ k, (k, w) ∈ tbl := by
  induction tbl with
  | nil => simp [lookupVal] at h
  | cons kw rest ih =>
    by_cases hkv : kw.1 = v
    · simp only [lookupVal, if_pos hkv, Option.some.injEq] at h
      exact ⟨kw.1, by rw [← h]; exact List.mem_cons_self _ _⟩
    · simp only [lookupVal, if_neg hkv] at h
      rcases ih h with ⟨k, hk⟩
      exact ⟨k, List.mem_cons.mpr (Or.inr hk)⟩

/-- Claim C2: for a history directory whose segments are non-contiguous,
loading stops at the first missing index; for segments {0,1,3} the loop
reads exactly segments 0 and 1, and the loaded table holds exactly their
rows (segment 3 is never read). -/
theorem collect_stops_at_first_gap (a b c : DF) (hcols : b.cols = a.cols) :
    collectLoop [some a, some b, none, some c] = [a, b] ∧
    ∃ df, collect_all_tracks_listen_history [some a, some b, none, some c] = some df ∧
      df.cols = a.cols ∧ df.rows.Perm (a.rows ++ b.rows) := by
  refine ⟨rfl, ?_⟩
  refine ⟨_, rfl, rfl, ?_⟩
  show (List.insertionSort (tsLe a.cols) (a.rows ++ (b.rows ++ []))).Perm (a.rows ++ b.rows)
  have h := List.perm_insertionSort (tsLe a.cols) (a.rows ++ (b.rows ++ []))
  simpa using h

theorem collect_stops_at_first_gap_witness :
    collectLoop [some segA, some segB, none, some segC] = [segA, segB] ∧
    ∃ df, collect_all_tracks_listen_history [some segA, some segB, none, some segC] = some df ∧
      df.cols = segA.cols ∧ df.rows.Perm (segA.rows ++ segB.rows) :=
  collect_stops_at_first_gap segA segB segC rfl

/-- Claim C3: whenever the loader returns a table, its rows are
non-decreasing by the timestamp column. -/
theorem collect_sorted_by_timestamp (segs : List (Option DF)) (df : DF)
    (h : collect_all_tracks_listen_history segs = some df) :
    List.Chain' (tsLe df.cols) df.rows := by
  unfold collect_all_tracks_listen_history at h
  cases hc : concatAll (collectLoop segs) with
  | none =>
    rw [hc] at h
    exact absurd h (by simp)
  | some d =>
    rw [hc] at h
    have hdf : df = d.sortByTs := by
      injection h with h'
      exact h'.symm
    subst hdf
    show List.Chain' (tsLe d.cols) (List.insertionSort (tsLe d.cols) d.rows)
    haveI : IsTotal (List Val) (tsLe d.cols) := ⟨tsLe_total d.cols⟩
    haveI : IsTrans (List Val) (tsLe d.cols) := ⟨fun r1 r2 r3 => tsLe_trans d.cols r1 r2 r3⟩
    exact (List.sorted_insertionSort (tsLe d.cols) d.rows).chain'

theorem collect_sorted_by_timestamp_witness :
    List.Chain' (tsLe loadedAB.cols) loadedAB.rows :=
  collect_sorted_by_timestamp [some segA, some segB] loadedAB (by decide)

/-- Claim C9: on a table without the catalog-URI column, the track-id
derivation fails with the missing-column error and produces no table. -/
theorem add_track_id_missing_uri (df : DF) (h : ¬ TRACK_URI ∈ df.cols) :
    add_track_id_column df = Except.error "KeyError: spotify_track_uri" := by
  unfold add_track_id_column
  rw [show df.getLoc TRACK_URI = none from (getLocAux_none_iff TRACK_URI df.cols).mpr h]

theorem add_track_id_missing_uri_witness :
    add_track_id_column demo9 = Except.error "KeyError: spotify_track_uri" :=
  add_track_id_missing_uri demo9 (by decide)

/-- Claim C10: a directory with no segment 0 makes the loader return the
None sentinel (no table, no sort), and the caller `get_tracks_listen_data`
then fails inside the track-id derivation instead of handling it. -/
theorem collect_none_when_no_segment_zero (segs : List (Option DF))
    (h : ∀ d : DF, ¬ segs.get? 0 = some (some d)) :
    collect_all_tracks_listen_history segs = none ∧
    get_tracks_listen_data segs =
      Except.error "AttributeError: NoneType has no attribute columns" := by
  cases segs with
  | nil => exact ⟨rfl, rfl⟩
  | cons o rest =>
    cases o with
    | none => exact ⟨rfl, rfl⟩
    | some d => exact absurd rfl (h d)

theorem collect_none_when_no_segment_zero_witness :
    collect_all_tracks_listen_history [] = none ∧
    get_tracks_listen_data [] =
      Except.error "AttributeError: NoneType has no attribute columns" :=
  collect_none_when_no_segment_zero [] (fun d hd => Option.noConfusion hd)

/-- Claim C6: for rows whose catalog URI is the fixed prefix followed by an
id (with no further occurrence of the prefix inside the id), the derived
track identifier equals that id, and the new `track_id` column sits
immediately after the URI column. -/
theorem add_track_id_derives (df : DF) (i : Nat) (wf : df.WF)
    (hi : df.getLoc TRACK_URI = some i) (hnew : ¬ TRACK_ID ∈ df.cols) :
    ∃ df', add_track_id_column df = Except.ok df' ∧
      df'.getLoc TRACK_URI = some i ∧
      df'.getLoc TRACK_ID = some (i + 1) ∧
      ∀ j id, (df.colValues TRACK_URI).get? j = some (Val.str ("spotify:track:" ++ id)) →
        containsSeq uriPat id.data = false →
        (df'.colValues TRACK_ID).get? j = some (Val.str id) := by
  have hlt : i < df.cols.length := getLocAux_lt TRACK_URI df.cols i hi
  have hlen : ((df.colValues TRACK_URI).map stripUriVal).length = df.rows.length := by
    rw [List.length_map, colValues_length df TRACK_URI i hi]
  refine ⟨df.insertCol (i + 1) TRACK_ID ((df.colValues TRACK_URI).map stripUriVal),
    ?_, ?_, ?_, ?_⟩
  · unfold add_track_id_column
    rw [hi]
  · exact insertCol_getLoc_old df TRACK_ID _ (i + 1) TRACK_URI i hi (Nat.lt_succ_self i)
  · exact insertCol_getLoc_new df TRACK_ID _ (i + 1) hnew (by omega)
  · intro j id hj hfree
    rw [insertCol_colValues_new df TRACK_ID _ (i + 1) wf hlen hnew (by omega)]
    rw [List.get?_eq_getElem?] at hj ⊢
    rw [List.getElem?_map, hj, Option.map_some', stripUriVal_strips id hfree]

theorem add_track_id_derives_witness :
    ∃ df', add_track_id_column demo6 = Except.ok df' ∧
      df'.getLoc TRACK_URI = some 0 ∧
      df'.getLoc TRACK_ID = some 1 ∧
      ∀ j id, (demo6.colValues TRACK_URI).get? j = some (Val.str ("spotify:track:" ++ id)) →
        containsSeq uriPat id.data = false →
        (df'.colValues TRACK_ID).get? j = some (Val.str id) :=
  add_track_id_derives demo6 0 (by decide) (by decide) (by decide)

/-- Claim C4: the known-track mapping step is total — every row gets a
non-null known id, raw ids absent from the supplied mapping map to
themselves, and the new column sits immediately after the raw track-id
column. -/
theorem add_known_track_id_total (df : DF) (known : List (Val × Val)) (i : Nat)
    (wf : df.WF) (hi : df.getLoc TRACK_ID = some i)
    (hnew : ¬ TRACK_KNOWN_ID ∈ df.cols)
    (hvals : ∀ v ∈ df.colValues TRACK_ID, ¬ v = Val.null)
    (hknown : ∀ kw ∈ known, ¬ kw.2 = Val.null) :
    ∃ df', add_known_track_id df known = Except.ok df' ∧
      df'.getLoc TRACK_ID = some i ∧
      df'.getLoc TRACK_KNOWN_ID = some (i + 1) ∧
      (∀ w ∈ df'.colValues TRACK_KNOWN_ID, ¬ w = Val.null) ∧
      (∀ j v, (df.colValues TRACK_ID).get? j = some v → lookupVal known v = none →
        (df'.colValues TRACK_KNOWN_ID).get? j = some v) := by
  have hlt : i < df.cols.length := getLocAux_lt TRACK_ID df.cols i hi
  have hlen : ((df.colValues TRACK_ID).map
      (updatedMapApply (uniqueFirst (df.colValues TRACK_ID)) known)).length
        = df.rows.length := by
    rw [List.length_map, colValues_length df TRACK_ID i hi]
  refine ⟨df.insertCol (i + 1) TRACK_KNOWN_ID
    ((df.colValues TRACK_ID).map
      (updatedMapApply (uniqueFirst (df.colValues TRACK_ID)) known)),
    ?_, ?_, ?_, ?_, ?_⟩
  · unfold add_known_track_id
    rw [hi]
  · exact insertCol_getLoc_old df TRACK_KNOWN_ID _ (i + 1) TRACK_ID i hi (Nat.lt_succ_self i)
  · exact insertCol_getLoc_new df TRACK_KNOWN_ID _ (i + 1) hnew (by omega)
  · rw [insertCol_colValues_new df TRACK_KNOWN_ID _ (i + 1) wf hlen hnew (by omega)]
    intro w hw
    rcases List.mem_map.mp hw with ⟨v, hv, rfl⟩
    unfold updatedMapApply
    cases hl : lookupVal known v with
    | some w' =>
      rcases lookupVal_mem known v w' hl with ⟨k, hk⟩
      exact hknown (k, w') hk
    | none =>
      rw [if_pos (uniqueFirst_mem (df.colValues TRACK_ID) v hv)]
      exact hvals v hv
  · intro j v hj hlook
    rw [insertCol_colValues_new df TRACK_KNOWN_ID _ (i + 1) wf hlen hnew (by omega)]
    rw [List.get?_eq_getElem?] at hj ⊢
    rw [List.getElem?_map, hj, Option.map_some']
    unfold updatedMapApply
    rw [hlook, if_pos (uniqueFirst_mem (df.colValues TRACK_ID) v (List.getElem?_mem hj))]

theorem add_known_track_id_total_witness :
    ∃ df', add_known_track_id demo4 known4 = Except.ok df' ∧
      df'.getLoc TRACK_ID = some 1 ∧
      df'.getLoc TRACK_KNOWN_ID = some 2 ∧
      (∀ w ∈ df'.colValues TRACK_KNOWN_ID, ¬ w = Val.null) ∧
      (∀ j v, (demo4.colValues TRACK_ID).get? j = some v → lookupVal known4 v = none →
        (df'.colValues TRACK_KNOWN_ID).get? j = some v) :=
  add_known_track_id_total demo4 known4 1 (by decide) (by decide) (by decide)
    (by decide) (by decide)

theorem replaceVal_keys (k : Int) (h0 : 0 ≤ k) (h12 : k < 12) :
    replaceVal keysReplacement (Val.int k) = Val.str (keyLetterSpec k) := by
  interval_cases k <;> decide

theorem replaceVal_modes (m : Int) (hm : m = 0 ∨ m = 1) :
    replaceVal modesReplacement (Val.int m) = Val.str (modeLetterSpec m) := by
  rcases hm with rfl | rfl <;> decide

theorem full_key_ne_empty (k m : Int) (hm : m = 0 ∨ m = 1) :
    ¬ (keyLetterSpec k ++ modeLetterSpec m) = "" := by
  intro he
  have hd : (keyLetterSpec k ++ modeLetterSpec m).data = [] := by rw [he]
  rw [String.data_append] at hd
  have h2 := (List.append_eq_nil.mp hd).2
  rcases hm with rfl | rfl
  · exact absurd h2 (by decide)
  · exact absurd h2 (by decide)

/-- Claim C5: on in-domain numeric codes (key 0–11, mode 0/1), the recoder
replaces key and mode by the fixed letter tables of the specification and
derives the full key as their non-empty concatenation (key 1, mode 1 gives
"C#M"). -/
theorem prepare_recodes_in_domain (df : DF) (ki mi : Nat) (wf : df.WF)
    (hki : df.getLoc SONG_KEY = some ki) (hmi : df.getLoc SONG_MODE = some mi)
    (hfk : ¬ SONG_FULL_KEY ∈ df.cols) :
    ∀ (j : Nat) (k m : Int), (df.colValues SONG_KEY)[j]? = some (Val.int k) →
      (df.colValues SONG_MODE)[j]? = some (Val.int m) →
      0 ≤ k → k < 12 → (m = 0 ∨ m = 1) →
      ((prepare_audio_analysis_data df).colValues SONG_KEY)[j]?
          = some (Val.str (keyLetterSpec k)) ∧
      ((prepare_audio_analysis_data df).colValues SONG_MODE)[j]?
          = some (Val.str (modeLetterSpec m)) ∧
      ((prepare_audio_analysis_data df).colValues SONG_FULL_KEY)[j]?
          = some (Val.str (keyLetterSpec k ++ modeLetterSpec m)) ∧
      ¬ (keyLetterSpec k ++ modeLetterSpec m) = "" := by
  intro j k m hkj hmj h0 h12 hm
  set vsm := (df.colValues SONG_MODE).map (replaceVal modesReplacement) with hvsm
  set df1 := df.setCol SONG_MODE vsm with hdf1
  set vsk := (df1.colValues SONG_KEY).map (replaceVal keysReplacement) with hvsk
  set df2 := df1.setCol SONG_KEY vsk with hdf2
  set fk := List.zipWith Val.add (df2.colValues SONG_KEY) (df2.colValues SONG_MODE) with hfkv
  have hprep : prepare_audio_analysis_data df = df2.setCol SONG_FULL_KEY fk := rfl
  have hlm : vsm.length = df.rows.length := by
    rw [hvsm, List.length_map, colValues_length df SONG_MODE mi hmi]
  have wf1 : df1.WF := setCol_WF df SONG_MODE vsm wf
  have hcols1 : df1.cols = df.cols := setCol_cols_of_mem df SONG_MODE vsm mi hmi
  have hrows1 : df1.rows.length = df.rows.length := setCol_rows_length df SONG_MODE vsm hlm
  have hgk1 : df1.getLoc SONG_KEY = some ki := by
    unfold DF.getLoc
    rw [hcols1]
    exact hki
  have hgm1 : df1.getLoc SONG_MODE = some mi := by
    unfold DF.getLoc
    rw [hcols1]
    exact hmi
  have hck1 : df1.colValues SONG_KEY = df.colValues SONG_KEY :=
    setCol_colValues_other df SONG_MODE vsm SONG_KEY ki wf hlm hki (by decide)
  have hcm1 : df1.colValues SONG_MODE = vsm :=
    setCol_colValues_self df SONG_MODE vsm wf hlm
  have hlk : vsk.length = df1.rows.length := by
    rw [hvsk, List.length_map, colValues_length df1 SONG_KEY ki hgk1]
  have wf2 : df2.WF := setCol_WF df1 SONG_KEY vsk wf1
  have hcols2 : df2.cols = df.cols := by
    rw [hdf2, setCol_cols_of_mem df1 SONG_KEY vsk ki hgk1, hcols1]
  have hgk2 : df2.getLoc SONG_KEY = some ki := by
    unfold DF.getLoc
    rw [hcols2]
    exact hki
  have hgm2 : df2.getLoc SONG_MODE = some mi := by
    unfold DF.getLoc
    rw [hcols2]
    exact hmi
  have hck2 : df2.colValues SONG_KEY = vsk :=
    setCol_colValues_self df1 SONG_KEY vsk wf1 hlk
  have hcm2 : df2.colValues SONG_MODE = df1.colValues SONG_MODE :=
    setCol_colValues_other df1 SONG_KEY vsk SONG_MODE mi wf1 hlk hgm1 (by decide)
  have hlf : fk.length = df2.rows.length := by
    rw [hfkv, List.length_zipWith, colValues_length df2 SONG_KEY ki hgk2,
      colValues_length df2 SONG_MODE mi hgm2]
    simp
  have hfk2 : ¬ SONG_FULL_KEY ∈ df2.cols := by
    rw [hcols2]
    exact hfk
  have hck3 : (df2.setCol SONG_FULL_KEY fk).colValues SONG_KEY = df2.colValues SONG_KEY :=
    setCol_colValues_other df2 SONG_FULL_KEY fk SONG_KEY ki wf2 hlf hgk2 (by decide)
  have hcm3 : (df2.setCol SONG_FULL_KEY fk).colValues SONG_MODE = df2.colValues SONG_MODE :=
    setCol_colValues_other df2 SONG_FULL_KEY fk SONG_MODE mi wf2 hlf hgm2 (by decide)
  have hcf3 : (df2.setCol SONG_FULL_KEY fk).colValues SONG_FULL_KEY = fk :=
    setCol_colValues_self df2 SONG_FULL_KEY fk wf2 hlf
  have hkv : vsk[j]? = some (Val.str (keyLetterSpec k)) := by
    rw [hvsk, hck1, List.getElem?_map, hkj, Option.map_some', replaceVal_keys k h0 h12]
  have hmv : vsm[j]? = some (Val.str (modeLetterSpec m)) := by
    rw [hvsm, List.getElem?_map, hmj, Option.map_some', replaceVal_modes m hm]
  refine ⟨?_, ?_, ?_, full_key_ne_empty k m hm⟩
  · rw [hprep, hck3, hck2]
    exact hkv
  · rw [hprep, hcm3, hcm2, hcm1]
    exact hmv
  · rw [hprep, hcf3, hfkv, List.getElem?_zipWith, hck2, hcm2, hcm1, hkv, hmv]
    rfl

theorem prepare_recodes_in_domain_witness :
    ((prepare_audio_analysis_data demo5).colValues SONG_KEY)[0]?
        = some (Val.str "C#") ∧
    ((prepare_audio_analysis_data demo5).colValues SONG_MODE)[0]?
        = some (Val.str "M") ∧
    ((prepare_audio_analysis_data demo5).colValues SONG_FULL_KEY)[0]?
        = some (Val.str "C#M") ∧
    ¬ ("C#M" : String) = "" :=
  prepare_recodes_in_domain demo5 0 1 (by decide) (by decide) (by decide) (by decide)
    0 1 1 (by decide) (by decide) (by decide) (by decide) (by decide)

/-- Claim C1 (code bug): `get_tracks_listen_data` calls `drop` without
`inplace = True` and discards the result, so the returned working table
still contains the username, decrypted-IP and decrypted-user-agent
columns; and on a table already lacking them, the `drop` call raises
`KeyError` instead of being a no-op. -/
theorem privacy_columns_survive_drop :
    get_tracks_listen_data [some demo1] = Except.ok demo1Out ∧
    USERNAME ∈ demo1Out.cols ∧
    IP_ADDRESS ∈ demo1Out.cols ∧
    USER_AGENT ∈ demo1Out.cols ∧
    get_tracks_listen_data [some demo1Clean]
      = Except.error "KeyError: columns not found in axis" :=
  ⟨rfl, by decide, by decide, by decide, rfl⟩

/-- Claim C7: by-key aggregation sums the played duration per key and
averages every other numeric column; on the spec's example (key "C" with
durations 100, 200, 300 and key "D" with 400) it yields exactly two
groups with sums 600 and 400. -/
theorem calc_listen_data_by_key_example :
    calc_listen_data_by_key demo7 =
      Except.ok [⟨"C", [], 600⟩, ⟨"D", [], 400⟩] ∧
    calc_listen_data_by_key demo7b =
      Except.ok [⟨"C", [("energy", 20)], 600⟩, ⟨"D", [("energy", 40)], 400⟩] := by
  constructor
  · rfl
  · rw [show calc_listen_data_by_key demo7b
        = Except.ok [⟨"C", [("energy", ((60 : Int) : Rat) / ((3 : Nat) : Rat))], 600⟩,
                     ⟨"D", [("energy", ((40 : Int) : Rat) / ((1 : Nat) : Rat))], 400⟩]
      from rfl]
    norm_num

/-- Claim C8 (code bug): `get_distinct_tracks` subscripts the `None`
returned by `drop_duplicates(inplace = True)`, so on every working table
whose grouping columns exist it raises `TypeError` instead of returning
the distinct rows. -/
theorem get_distinct_tracks_raises (df : DF)
    (h1 : ALBUM_ARTIST_NAME ∈ df.cols) (h2 : ALBUM_NAME ∈ df.cols)
    (h3 : TRACK_NAME ∈ df.cols) (h4 : TRACK_ID ∈ df.cols) :
    get_distinct_tracks df
      = Except.error "TypeError: NoneType object is not subscriptable" := by
  unfold get_distinct_tracks DF.sortValuesBy
  rw [if_pos (by simp [h1, h2, h3, h4])]

theorem get_distinct_tracks_raises_witness :
    get_distinct_tracks demo8
      = Except.error "TypeError: NoneType object is not subscriptable" :=
  get_distinct_tracks_raises demo8 (by decide) (by decide) (by decide) (by decide)
